import Mathlib

/-
Shallow embedding of two components of the dnf5 repository:

* the libdnf5 Logger abstraction (src/include/libdnf5/logger/logger.hpp), and
* the microdnf install pipeline (src/microdnf/commands/install/install.cpp).

Machine effects (clock sampling, the process identifier, the sink, the
format routine) are passed explicitly; observable collaborator calls are
recorded as events so that theorems can speak about what was invoked.
-/

namespace Libdnf5

/-- Logger::Level from logger.hpp line 46:
enum class Level : unsigned int { CRITICAL, ERROR, WARNING, NOTICE, INFO, DEBUG, TRACE }. -/
inductive Level
  | CRITICAL
  | ERROR
  | WARNING
  | NOTICE
  | INFO
  | DEBUG
  | TRACE
deriving DecidableEq, Repr

/-- The underlying unsigned-int value of a Level (declaration order, as in the enum). -/
def Level.toNat : Level → Nat
  | Level.CRITICAL => 0
  | Level.ERROR => 1
  | Level.WARNING => 2
  | Level.NOTICE => 3
  | Level.INFO => 4
  | Level.DEBUG => 5
  | Level.TRACE => 6

/-- The error thrown by get_level when no level is set (LoggerErrorLevelNotSet,
logger.hpp line 57). -/
inductive LoggerError
  | levelNotSet
deriving DecidableEq, Repr

/-- Failure of the libdnf5::utils::sformat format expansion (format.hpp is
outside the visible sources; only the possibility of failure matters here). -/
inductive FormatError
  | formatFailure
deriving DecidableEq, Repr

/-- Failure of a concrete sink implementation. -/
inductive SinkError
  | sinkFailure
deriving DecidableEq, Repr

/-- The state of a Logger object: the single data member
std::optional<Level> level (logger.hpp line 120). -/
structure Logger where
  level : Option Level
deriving DecidableEq, Repr

/-- A default-constructed Logger: the optional level member is empty. -/
def Logger.new : Logger := ⟨none⟩

/-- One invocation of the abstract sink
write(time, pid, level, message) (logger.hpp lines 108-112). -/
structure SinkCall where
  time : Nat
  pid : Nat
  level : Level
  message : String
deriving DecidableEq, Repr

/-- Observable steps of a logging call: the format expansion being invoked,
and the sink write being invoked. -/
inductive LogEvent
  | format (template : String) (args : List String)
  | write (call : SinkCall)
deriving DecidableEq, Repr

/-- The external format routine: may fail. -/
def Formatter := String → List String → Except FormatError String

/-- A concrete sink implementation: pure side effect that may fail internally. -/
def Sink := SinkCall → Except SinkError Unit

/-- Logger::set_level from logger.hpp line 55: this->level = level. -/
def Logger.set_level (self : Logger) (lv : Level) : Logger :=
  { self with level := some lv }

/-- Logger::is_level_set from logger.hpp line 61: level.has_value(). -/
def Logger.is_level_set (self : Logger) : Bool :=
  self.level.isSome

/-- Modelled from the spec: the body of Logger::get_level lives in logger.cpp,
which is not among the visible sources. Per the spec it returns the configured
threshold and fails with a "level not configured" error if none was ever set. -/
def Logger.get_level (self : Logger) : Except LoggerError Level :=
  match self.level with
  | some lv => Except.ok lv
  | none => Except.error LoggerError.levelNotSet

/-- Modelled from the spec: the body of Logger::is_enabled_for lives in
logger.cpp, which is not among the visible sources. Per the spec it returns
true iff a threshold is configured and the message level is at least as severe
as the threshold (lower enum ordinal = more severe), and false when no
threshold is configured. -/
def Logger.is_enabled_for (self : Logger) (msg_level : Level) : Bool :=
  match self.level with
  | none => false
  | some t => decide (msg_level.toNat ≤ t.toNat)

/-- Modelled from the spec: the body of Logger::log_line lives in logger.cpp,
which is not among the visible sources. Per the spec it takes a pre-formatted
string, stamps it with the current wall-clock time and the calling process
identifier, and forwards to the abstract write sink; it never raises (it is
declared noexcept in logger.hpp line 106), so a sink failure is swallowed:
the sink result is discarded and no error channel exists in the return type. -/
def Logger.log_line (sink : Sink) (now pid : Nat) (lv : Level) (message : String) :
    List LogEvent :=
  let c : SinkCall := ⟨now, pid, lv, message⟩
  match sink c with
  | Except.ok _ => [LogEvent.write c]
  | Except.error _ => [LogEvent.write c]

/-- Logger::log from logger.hpp lines 101-104:
log_line(level, libdnf5::utils::sformat(format, args...)).
The format expansion is performed unconditionally; the logger state (and hence
the configured threshold) is not consulted, and the expansion is not guarded,
so a format failure propagates to the caller. Returns the recorded events and
the outcome the caller sees. -/
def Logger.log (_self : Logger) (fmt : Formatter) (sink : Sink) (now pid : Nat)
    (lv : Level) (template : String) (args : List String) :
    List LogEvent × Except FormatError Unit :=
  match fmt template args with
  | Except.ok msg =>
      (LogEvent.format template args :: Logger.log_line sink now pid lv msg, Except.ok ())
  | Except.error e => ([LogEvent.format template args], Except.error e)

/-- Logger::critical from logger.hpp lines 66-69. -/
def Logger.critical (self : Logger) (fmt : Formatter) (sink : Sink) (now pid : Nat)
    (template : String) (args : List String) : List LogEvent × Except FormatError Unit :=
  Logger.log self fmt sink now pid Level.CRITICAL template args

/-- Logger::error from logger.hpp lines 71-74. -/
def Logger.error (self : Logger) (fmt : Formatter) (sink : Sink) (now pid : Nat)
    (template : String) (args : List String) : List LogEvent × Except FormatError Unit :=
  Logger.log self fmt sink now pid Level.ERROR template args

/-- Logger::warning from logger.hpp lines 76-79. -/
def Logger.warning (self : Logger) (fmt : Formatter) (sink : Sink) (now pid : Nat)
    (template : String) (args : List String) : List LogEvent × Except FormatError Unit :=
  Logger.log self fmt sink now pid Level.WARNING template args

/-- Logger::notice from logger.hpp lines 81-84. -/
def Logger.notice (self : Logger) (fmt : Formatter) (sink : Sink) (now pid : Nat)
    (template : String) (args : List String) : List LogEvent × Except FormatError Unit :=
  Logger.log self fmt sink now pid Level.NOTICE template args

/-- Logger::info from logger.hpp lines 86-89. -/
def Logger.info (self : Logger) (fmt : Formatter) (sink : Sink) (now pid : Nat)
    (template : String) (args : List String) : List LogEvent × Except FormatError Unit :=
  Logger.log self fmt sink now pid Level.INFO template args

/-- Logger::debug from logger.hpp lines 91-94. -/
def Logger.debug (self : Logger) (fmt : Formatter) (sink : Sink) (now pid : Nat)
    (template : String) (args : List String) : List LogEvent × Except FormatError Unit :=
  Logger.log self fmt sink now pid Level.DEBUG template args

/-- Logger::trace from logger.hpp lines 96-99. -/
def Logger.trace (self : Logger) (fmt : Formatter) (sink : Sink) (now pid : Nat)
    (template : String) (args : List String) : List LogEvent × Except FormatError Unit :=
  Logger.log self fmt sink now pid Level.TRACE template args

/-- A format routine that returns the template unchanged (the behaviour of
sformat on a template with no placeholders, such as "x" with no arguments). -/
def litFmt : Formatter := fun template _ => Except.ok template

/-- A format routine that always fails. -/
def failFmt : Formatter := fun _ _ => Except.error FormatError.formatFailure

/-- A sink that always succeeds. -/
def okSink : Sink := fun _ => Except.ok ()

/-- A sink that always fails internally. -/
def failSink : Sink := fun _ => Except.error SinkError.sinkFailure

end Libdnf5

namespace Libdnf5

/-- Claim C1 (code divergence, evaluated at the failing input): with the
threshold set to WARNING, the convenience call info("x") nevertheless invokes
the format expansion and reaches the sink write, once, with level INFO.
Logger::log (logger.hpp lines 101-104) expands the template and forwards to
log_line without consulting the configured threshold, contradicting the claim
(and the set_level documentation comment at logger.hpp lines 53-54, which says
messages above the configured level are skipped). -/
theorem suppressed_info_invokes_format_and_write :
    (Logger.info (Logger.set_level Logger.new Level.WARNING) litFmt okSink 3 7 "x" []).1
      = [LogEvent.format "x" [], LogEvent.write ⟨3, 7, Level.INFO, "x"⟩] := rfl

/-- Claim C6: get_level on a freshly constructed logger (no set_level yet)
fails with the level-not-set configuration error; after any set_level lv, on
any prior state, get_level returns exactly lv. -/
theorem get_level_contract :
    Logger.get_level Logger.new = Except.error LoggerError.levelNotSet ∧
    ∀ (lg : Logger) (lv : Level),
      Logger.get_level (Logger.set_level lg lv) = Except.ok lv := by
  refine ⟨rfl, ?_⟩
  intro lg lv
  rfl

/-- Claim C7: is_enabled_for msg is false whenever is_level_set is false, and
when a threshold T is configured (get_level returns T) it is true exactly when
msg is at least as severe as T, severity being the enum ordinal order with the
lower ordinal the more severe. -/
theorem is_enabled_for_spec :
    ∀ (lg : Logger) (msg : Level),
      (Logger.is_level_set lg = false → Logger.is_enabled_for lg msg = false) ∧
      (∀ t : Level, Logger.get_level lg = Except.ok t →
        (Logger.is_enabled_for lg msg = true ↔ msg.toNat ≤ t.toNat)) := by
  intro lg msg
  obtain ⟨lvl⟩ := lg
  cases lvl with
  | none =>
      refine ⟨fun _ => rfl, ?_⟩
      intro t ht
      cases ht
  | some u =>
      refine ⟨fun hs => ?_, ?_⟩
      · simp [Logger.is_level_set] at hs
      · intro t ht
        have hu : u = t := by
          simpa [Logger.get_level, Except.ok.injEq] using ht
        subst hu
        simp [Logger.is_enabled_for]

/-- Witness for claim C7: applied to the fresh logger at level INFO, and to a
logger configured with threshold WARNING at message level ERROR. -/
theorem is_enabled_for_spec_witness :
    Logger.is_enabled_for Logger.new Level.INFO = false ∧
    (Logger.is_enabled_for (Logger.set_level Logger.new Level.WARNING) Level.ERROR = true
      ↔ Level.ERROR.toNat ≤ Level.WARNING.toNat) :=
  ⟨(is_enabled_for_spec Logger.new Level.INFO).1 rfl,
   (is_enabled_for_spec (Logger.set_level Logger.new Level.WARNING) Level.ERROR).2
     Level.WARNING rfl⟩

/-- Counterexample to claim C8 as stated: there is a logging call in which a
format failure raises to the caller. With an always-failing format routine,
info on a fully enabled logger (threshold TRACE) returns the format error to
the caller: the sformat call inside Logger::log (logger.hpp line 103) is not
guarded, and log itself is not noexcept. -/
theorem format_failure_raises_to_caller :
    (Logger.info (Logger.set_level Logger.new Level.TRACE) failFmt okSink 0 0 "x" []).2
      = Except.error FormatError.formatFailure := rfl

/-- Claim C8 amended: a sink failure never raises to the caller (log_line and
write are noexcept; the sink result is discarded), but a format failure in
log or any convenience call does propagate: the caller-visible outcome of a
logging call equals the format result, independent of the sink. -/
theorem log_outcome_depends_only_on_formatter :
    ∀ (lg : Logger) (fmt : Formatter) (sink : Sink) (now pid : Nat) (lv : Level)
      (template : String) (args : List String),
      (Logger.log lg fmt sink now pid lv template args).2
        = (fmt template args).map (fun _ => ()) := by
  intro lg fmt sink now pid lv template args
  unfold Logger.log
  cases fmt template args with
  | ok msg => rfl
  | error e => rfl

end Libdnf5

namespace Microdnf

/-- A collected command-line value, a libdnf::Option object. The argument
parser stores each positional value in a clone of the init value the command
registered; the value may in general be of any Option subclass, of which an
option holding a string (libdnf::OptionString) is the one the install command
uses; one other subclass suffices to represent the rest. -/
inductive DnfOption
  | optionString (value : String)
  | optionBool (value : Bool)
deriving DecidableEq, Repr

/-- Whether a collected value is an OptionString. -/
def DnfOption.isOptionString : DnfOption → Bool
  | DnfOption.optionString _ => true
  | _ => false

/-- One iteration body of the goal-construction loop (install.cpp lines 90-91):
dynamic_cast<libdnf::OptionString *>(pattern.get()) followed by
option->get_value() with no null check. On a value that is not an
OptionString the cast yields a null pointer and the dereference is undefined
behaviour, modelled as none. -/
def castAndGetValue : DnfOption → Option String
  | DnfOption.optionString v => some v
  | _ => none

/-- The goal-construction loop (install.cpp lines 89-92): for each collected
pattern in order, cast it to OptionString and read its value to register an
install request. Returns none if any iteration dereferences a null pointer. -/
def addInstallRequests : List DnfOption → Option (List String)
  | [] => some []
  | p :: ps =>
      match castAndGetValue p with
      | none => none
      | some v => (addInstallRequests ps).map (fun vs => v :: vs)

/-- The effect of CmdInstall::set_argument_parser (install.cpp lines 44-49) on
the collected list: the positional argument keys_to_match is registered with
an init value of new libdnf::OptionString(nullptr), and the parser stores
every supplied positional value in a clone of that init value, so each
collected element is an OptionString holding the supplied string. -/
def collectPatterns (args : List String) : List DnfOption :=
  args.map DnfOption.optionString

/-- Terminal states of a persisted transaction record
(libdnf::transaction::TransactionState); the install command uses DONE. -/
inductive TransactionState
  | STARTED
  | DONE
  | ERROR
deriving DecidableEq, Repr

/-- Observable collaborator calls made by CmdInstall::run, in program order. -/
inductive Event
  | createSystemRepo
  | loadRepos
  | addRpmInstall (pattern : String)
  | resolveGoal (strict : Bool)
  | printProblems (text : String)
  | printTable
  | promptConfirm
  | printAborted
  | download
  | newDbTransaction
  | fillTransactions
  | setDtStart (t : Nat)
  | startRecord
  | runTransaction (ok : Bool)
  | setDtEnd (t : Nat)
  | finishRecord (s : TransactionState)
deriving DecidableEq, Repr

/-- Whether an event is a finish of the transaction record. -/
def Event.isFinishRecord : Event → Bool
  | Event.finishRecord _ => true
  | _ => false

/-- Whether an event is a download invocation. -/
def Event.isDownload : Event → Bool
  | Event.download => true
  | _ => false

/-- The caller-visible outcome of one pipeline run: normal completion,
a clean early exit with no system change, or a propagated collaborator
failure. -/
inductive Outcome
  | done
  | noChange
  | failure
deriving DecidableEq, Repr

/-- The environment of one pipeline run: the collected patterns and the
responses of the external collaborators, plus the two wall-clock samples
(seconds since the epoch) taken at lines 117 and 123 of install.cpp. -/
structure Env where
  patterns : List DnfOption
  resolveReturnsProblem : Bool
  problemsText : String
  tableHasContent : Bool
  userConfirms : Bool
  downloadOk : Bool
  execOk : Bool
  t1 : Nat
  t2 : Nat
deriving Repr

/-- The trace prefix common to every branch of the run (install.cpp lines
74-93): load the system repository and the enabled remote repositories,
register one install request per collected pattern value in order, then
resolve the goal in non-strict mode. -/
def preTrace (vals : List String) : List Event :=
  [Event.createSystemRepo, Event.loadRepos]
    ++ vals.map Event.addRpmInstall ++ [Event.resolveGoal false]

/-- CmdInstall::run (install.cpp lines 73-126) as a function of the run
environment. Returns none when the goal-construction loop dereferences a null
pointer; otherwise returns the recorded collaborator calls and the outcome.
Branches in order: a reported resolution problem prints all problems and
returns; an empty transaction table returns; a non-affirmative confirmation
prints the abort notice and returns; a download failure propagates; otherwise
the db transaction is created and filled, its start time stamped and the
record started, the rpm transaction run (its reported outcome unused), and the
end time stamped and the record finished with state DONE. -/
def run (env : Env) : Option (List Event × Outcome) :=
  match addInstallRequests env.patterns with
  | none => none
  | some vals =>
    let tr0 := preTrace vals
    if env.resolveReturnsProblem then
      some (tr0 ++ [Event.printProblems env.problemsText], Outcome.noChange)
    else
      let tr1 := tr0 ++ [Event.printTable]
      if env.tableHasContent = false then
        some (tr1, Outcome.noChange)
      else
        let tr2 := tr1 ++ [Event.promptConfirm]
        if env.userConfirms = false then
          some (tr2 ++ [Event.printAborted], Outcome.noChange)
        else
          let tr3 := tr2 ++ [Event.download]
          if env.downloadOk = false then
            some (tr3, Outcome.failure)
          else
            some (tr3 ++ [Event.newDbTransaction, Event.fillTransactions,
                Event.setDtStart env.t1, Event.startRecord,
                Event.runTransaction env.execOk,
                Event.setDtEnd env.t2, Event.finishRecord TransactionState.DONE],
              Outcome.done)

end Microdnf

namespace Microdnf

/-- Every event of the common trace prefix is a repository load, an install
registration, or the resolve call. -/
theorem mem_preTrace {vals : List String} {e : Event} (h : e ∈ preTrace vals) :
    e = Event.createSystemRepo ∨ e = Event.loadRepos ∨
    (∃ s, e = Event.addRpmInstall s) ∨ e = Event.resolveGoal false := by
  simp only [preTrace, List.mem_append, List.mem_cons, List.mem_singleton,
    List.mem_map, List.not_mem_nil, or_false] at h
  rcases h with (h | h) | h
  · rcases h with h | h
    · exact Or.inl h
    · exact Or.inr (Or.inl h)
  · rcases h with ⟨s, _, rfl⟩
    exact Or.inr (Or.inr (Or.inl ⟨s, rfl⟩))
  · exact Or.inr (Or.inr (Or.inr h))

/-- A predicate false on every kind of event the common prefix contains counts
zero occurrences there. -/
theorem countP_preTrace_eq_zero (vals : List String) (p : Event → Bool)
    (h1 : p Event.createSystemRepo = false) (h2 : p Event.loadRepos = false)
    (h3 : ∀ s, p (Event.addRpmInstall s) = false)
    (h4 : p (Event.resolveGoal false) = false) :
    (preTrace vals).countP p = 0 := by
  rw [List.countP_eq_zero]
  intro e he
  rcases mem_preTrace he with h | h | ⟨s, h⟩ | h <;> subst h <;>
    simp [h1, h2, h3, h4]

/-- Exhaustive description of the traces and outcomes CmdInstall::run can
produce, one disjunct per branch of the pipeline. -/
theorem run_shape (env : Env) (tr : List Event) (out : Outcome)
    (h : run env = some (tr, out)) :
    ∃ vals, addInstallRequests env.patterns = some vals ∧
      ((env.resolveReturnsProblem = true ∧
          tr = preTrace vals ++ [Event.printProblems env.problemsText] ∧
          out = Outcome.noChange) ∨
       (env.resolveReturnsProblem = false ∧ env.tableHasContent = false ∧
          tr = preTrace vals ++ [Event.printTable] ∧ out = Outcome.noChange) ∨
       (env.resolveReturnsProblem = false ∧ env.tableHasContent = true ∧
          env.userConfirms = false ∧
          tr = preTrace vals ++ [Event.printTable, Event.promptConfirm, Event.printAborted] ∧
          out = Outcome.noChange) ∨
       (env.resolveReturnsProblem = false ∧ env.tableHasContent = true ∧
          env.userConfirms = true ∧ env.downloadOk = false ∧
          tr = preTrace vals ++ [Event.printTable, Event.promptConfirm, Event.download] ∧
          out = Outcome.failure) ∨
       (env.resolveReturnsProblem = false ∧ env.tableHasContent = true ∧
          env.userConfirms = true ∧ env.downloadOk = true ∧
          tr = preTrace vals ++ [Event.printTable, Event.promptConfirm, Event.download,
            Event.newDbTransaction, Event.fillTransactions,
            Event.setDtStart env.t1, Event.startRecord,
            Event.runTransaction env.execOk,
            Event.setDtEnd env.t2, Event.finishRecord TransactionState.DONE] ∧
          out = Outcome.done)) := by
  unfold run at h
  cases hv : addInstallRequests env.patterns with
  | none => rw [hv] at h; cases h
  | some vals =>
    rw [hv] at h
    refine ⟨vals, rfl, ?_⟩
    simp only at h
    split at h
    · next hres =>
      simp only [Option.some.injEq, Prod.mk.injEq] at h
      obtain ⟨rfl, rfl⟩ := h
      exact Or.inl ⟨hres, rfl, rfl⟩
    · next hres =>
      rw [Bool.not_eq_true] at hres
      split at h
      · next htab =>
        simp only [Option.some.injEq, Prod.mk.injEq] at h
        obtain ⟨rfl, rfl⟩ := h
        exact Or.inr (Or.inl ⟨hres, htab, by simp, rfl⟩)
      · next htab =>
        rw [Bool.not_eq_false] at htab
        split at h
        · next hcon =>
          simp only [Option.some.injEq, Prod.mk.injEq] at h
          obtain ⟨rfl, rfl⟩ := h
          exact Or.inr (Or.inr (Or.inl ⟨hres, htab, hcon, by simp, rfl⟩))
        · next hcon =>
          rw [Bool.not_eq_false] at hcon
          split at h
          · next hdl =>
            simp only [Option.some.injEq, Prod.mk.injEq] at h
            obtain ⟨rfl, rfl⟩ := h
            exact Or.inr (Or.inr (Or.inr (Or.inl ⟨hres, htab, hcon, hdl, by simp, rfl⟩)))
          · next hdl =>
            rw [Bool.not_eq_false] at hdl
            simp only [Option.some.injEq, Prod.mk.injEq] at h
            obtain ⟨rfl, rfl⟩ := h
            exact Or.inr (Or.inr (Or.inr (Or.inr ⟨hres, htab, hcon, hdl, by simp, rfl⟩)))

end Microdnf

namespace Microdnf

/-- An event distinct from every event kind of the common prefix does not
occur in it. -/
theorem not_mem_preTrace {vals : List String} {e : Event}
    (h1 : e ≠ Event.createSystemRepo) (h2 : e ≠ Event.loadRepos)
    (h3 : ∀ s, e ≠ Event.addRpmInstall s) (h4 : e ≠ Event.resolveGoal false) :
    e ∉ preTrace vals := by
  intro hm
  rcases mem_preTrace hm with h | h | ⟨s, h⟩ | h
  exacts [h1 h, h2 h, h3 s h, h4 h]

/-- Claim C3: in every pipeline run in which resolution reports a problem, the
full problem text is rendered, the run ends with no system change, and neither
a transaction record creation nor an execution collaborator call occurs. -/
theorem problem_path_no_record_no_execution :
    ∀ (env : Env) (tr : List Event) (out : Outcome),
      run env = some (tr, out) → env.resolveReturnsProblem = true →
      Event.printProblems env.problemsText ∈ tr ∧ out = Outcome.noChange ∧
      Event.newDbTransaction ∉ tr ∧ ∀ b, Event.runTransaction b ∉ tr := by
  intro env tr out h hres
  obtain ⟨vals, _, hcase⟩ := run_shape env tr out h
  rcases hcase with ⟨_, rfl, rfl⟩ | ⟨hr, _⟩ | ⟨hr, _⟩ | ⟨hr, _⟩ | ⟨hr, _⟩
  · refine ⟨by simp, rfl, ?_, ?_⟩
    · intro hmem
      rcases List.mem_append.mp hmem with hm | hm
      · exact not_mem_preTrace (by simp) (by simp) (by simp) (by simp) hm
      · simp at hm
    · intro b hmem
      rcases List.mem_append.mp hmem with hm | hm
      · exact not_mem_preTrace (by simp) (by simp) (by simp) (by simp) hm
      · simp at hm
  all_goals simp [hres] at hr

/-- Environment of the witness run for claim C3: one pattern, resolution
reports a problem. -/
def envProblem : Env :=
  ⟨[DnfOption.optionString "nonexistent"], true, "problem", false, false, false, false, 0, 0⟩

/-- Trace of the witness run for claim C3. -/
def trProblem : List Event :=
  [Event.createSystemRepo, Event.loadRepos, Event.addRpmInstall "nonexistent",
   Event.resolveGoal false, Event.printProblems "problem"]

/-- Witness for claim C3 on a concrete run whose resolution reports one
problem. -/
theorem problem_path_witness :
    Event.printProblems "problem" ∈ trProblem ∧ Outcome.noChange = Outcome.noChange ∧
    Event.newDbTransaction ∉ trProblem ∧ ∀ b, Event.runTransaction b ∉ trProblem :=
  problem_path_no_record_no_execution envProblem trProblem Outcome.noChange (by decide) rfl

/-- Claim C4: in every pipeline run with clean resolution in which the preview
renderer reports nothing to display or the user gives a non-affirmative
answer, the run ends with no system change, no download and no execution
occur, and in the non-affirmative case the abort notice is rendered. -/
theorem abort_paths_no_download_no_execution :
    ∀ (env : Env) (tr : List Event) (out : Outcome),
      run env = some (tr, out) → env.resolveReturnsProblem = false →
      (env.tableHasContent = false ∨ env.userConfirms = false) →
      out = Outcome.noChange ∧ Event.download ∉ tr ∧
      (∀ b, Event.runTransaction b ∉ tr) ∧
      (env.tableHasContent = true → Event.printAborted ∈ tr) := by
  intro env tr out h hres hd
  obtain ⟨vals, _, hcase⟩ := run_shape env tr out h
  rcases hcase with ⟨hr, _⟩ | ⟨_, htab, rfl, rfl⟩ | ⟨_, htab, hcon, rfl, rfl⟩ |
    ⟨_, htab, hcon, _, _, _⟩ | ⟨_, htab, hcon, _, _, _⟩
  · simp [hres] at hr
  · refine ⟨rfl, ?_, ?_, ?_⟩
    · intro hmem
      rcases List.mem_append.mp hmem with hm | hm
      · exact not_mem_preTrace (by simp) (by simp) (by simp) (by simp) hm
      · simp at hm
    · intro b hmem
      rcases List.mem_append.mp hmem with hm | hm
      · exact not_mem_preTrace (by simp) (by simp) (by simp) (by simp) hm
      · simp at hm
    · intro hc
      rw [hc] at htab
      cases htab
  · refine ⟨rfl, ?_, ?_, fun _ => by simp⟩
    · intro hmem
      rcases List.mem_append.mp hmem with hm | hm
      · exact not_mem_preTrace (by simp) (by simp) (by simp) (by simp) hm
      · simp at hm
    · intro b hmem
      rcases List.mem_append.mp hmem with hm | hm
      · exact not_mem_preTrace (by simp) (by simp) (by simp) (by simp) hm
      · simp at hm
  · rcases hd with hd | hd
    · rw [hd] at htab; cases htab
    · rw [hd] at hcon; cases hcon
  · rcases hd with hd | hd
    · rw [hd] at htab; cases htab
    · rw [hd] at hcon; cases hcon

/-- Environment of the witness run for claim C4: preview has content, the user
declines. -/
def envAbort : Env :=
  ⟨[DnfOption.optionString "foo"], false, "", true, false, false, false, 0, 0⟩

/-- Trace of the witness run for claim C4. -/
def trAbort : List Event :=
  [Event.createSystemRepo, Event.loadRepos, Event.addRpmInstall "foo",
   Event.resolveGoal false, Event.printTable, Event.promptConfirm, Event.printAborted]

/-- Witness for claim C4 on a concrete declined run. -/
theorem abort_paths_witness :
    Outcome.noChange = Outcome.noChange ∧ Event.download ∉ trAbort ∧
    (∀ b, Event.runTransaction b ∉ trAbort) ∧
    (envAbort.tableHasContent = true → Event.printAborted ∈ trAbort) :=
  abort_paths_no_download_no_execution envAbort trAbort Outcome.noChange
    (by decide) rfl (Or.inr rfl)

end Microdnf

namespace Microdnf

/-- Claim C5: in every pipeline run in which the download stage fails, the run
does not progress to commit: no transaction record is created or started and
the execution collaborator is never invoked; the failure propagates to the
caller as a failure outcome, and the download is attempted exactly once (no
retry). -/
theorem download_failure_prevents_commit :
    ∀ (env : Env) (tr : List Event) (out : Outcome),
      run env = some (tr, out) →
      env.resolveReturnsProblem = false → env.tableHasContent = true →
      env.userConfirms = true → env.downloadOk = false →
      out = Outcome.failure ∧ tr.countP Event.isDownload = 1 ∧
      Event.newDbTransaction ∉ tr ∧ Event.startRecord ∉ tr ∧
      ∀ b, Event.runTransaction b ∉ tr := by
  intro env tr out h hres htab hcon hdl
  obtain ⟨vals, _, hcase⟩ := run_shape env tr out h
  rcases hcase with ⟨hr, _⟩ | ⟨_, ht, _⟩ | ⟨_, _, hc, _⟩ | ⟨_, _, _, _, rfl, rfl⟩ |
    ⟨_, _, _, hk, _, _⟩
  · simp [hres] at hr
  · simp [htab] at ht
  · simp [hcon] at hc
  · refine ⟨rfl, ?_, ?_, ?_, ?_⟩
    · rw [List.countP_append,
        countP_preTrace_eq_zero vals Event.isDownload rfl rfl (fun _ => rfl) rfl]
      rfl
    · intro hmem
      rcases List.mem_append.mp hmem with hm | hm
      · exact not_mem_preTrace (by simp) (by simp) (by simp) (by simp) hm
      · simp at hm
    · intro hmem
      rcases List.mem_append.mp hmem with hm | hm
      · exact not_mem_preTrace (by simp) (by simp) (by simp) (by simp) hm
      · simp at hm
    · intro b hmem
      rcases List.mem_append.mp hmem with hm | hm
      · exact not_mem_preTrace (by simp) (by simp) (by simp) (by simp) hm
      · simp at hm
  · simp [hdl] at hk

/-- Environment of the witness run for claim C5: confirmed run whose download
fails. -/
def envDlFail : Env :=
  ⟨[DnfOption.optionString "foo"], false, "", true, true, false, false, 0, 0⟩

/-- Trace of the witness run for claim C5. -/
def trDlFail : List Event :=
  [Event.createSystemRepo, Event.loadRepos, Event.addRpmInstall "foo",
   Event.resolveGoal false, Event.printTable, Event.promptConfirm, Event.download]

/-- Witness for claim C5 on a concrete run with a failing download. -/
theorem download_failure_witness :
    Outcome.failure = Outcome.failure ∧ trDlFail.countP Event.isDownload = 1 ∧
    Event.newDbTransaction ∉ trDlFail ∧ Event.startRecord ∉ trDlFail ∧
    ∀ b, Event.runTransaction b ∉ trDlFail :=
  download_failure_prevents_commit envDlFail trDlFail Outcome.failure
    (by decide) rfl rfl rfl rfl

/-- Claim C2: in every pipeline run that creates a transaction record, the
finish state is set exactly once, an end timestamp is stamped iff a terminal
state is set, and every stamped end time is at least every stamped start time,
under the hypothesis that the second wall-clock sample is at least the
first. -/
theorem record_finish_invariants :
    ∀ (env : Env) (tr : List Event) (out : Outcome),
      run env = some (tr, out) → env.t1 ≤ env.t2 →
      Event.newDbTransaction ∈ tr →
      tr.countP Event.isFinishRecord = 1 ∧
      ((∃ t, Event.setDtEnd t ∈ tr) ↔ (∃ s, Event.finishRecord s ∈ tr)) ∧
      (∀ t u, Event.setDtStart t ∈ tr → Event.setDtEnd u ∈ tr → t ≤ u) := by
  intro env tr out h ht hmem
  obtain ⟨vals, _, hcase⟩ := run_shape env tr out h
  rcases hcase with ⟨_, rfl, _⟩ | ⟨_, _, rfl, _⟩ | ⟨_, _, _, rfl, _⟩ |
    ⟨_, _, _, _, rfl, _⟩ | ⟨_, _, _, _, rfl, _⟩
  · exfalso
    rcases List.mem_append.mp hmem with hm | hm
    · exact not_mem_preTrace (by simp) (by simp) (by simp) (by simp) hm
    · simp at hm
  · exfalso
    rcases List.mem_append.mp hmem with hm | hm
    · exact not_mem_preTrace (by simp) (by simp) (by simp) (by simp) hm
    · simp at hm
  · exfalso
    rcases List.mem_append.mp hmem with hm | hm
    · exact not_mem_preTrace (by simp) (by simp) (by simp) (by simp) hm
    · simp at hm
  · exfalso
    rcases List.mem_append.mp hmem with hm | hm
    · exact not_mem_preTrace (by simp) (by simp) (by simp) (by simp) hm
    · simp at hm
  · refine ⟨?_, ?_, ?_⟩
    · rw [List.countP_append,
        countP_preTrace_eq_zero vals Event.isFinishRecord rfl rfl (fun _ => rfl) rfl]
      rfl
    · constructor
      · intro _
        exact ⟨TransactionState.DONE, by simp⟩
      · intro _
        exact ⟨env.t2, by simp⟩
    · intro t u hts htu
      have ht1 : t = env.t1 := by
        rcases List.mem_append.mp hts with hm | hm
        · exact absurd hm (not_mem_preTrace (by simp) (by simp) (by simp) (by simp))
        · simpa using hm
      have ht2 : u = env.t2 := by
        rcases List.mem_append.mp htu with hm | hm
        · exact absurd hm (not_mem_preTrace (by simp) (by simp) (by simp) (by simp))
        · simpa using hm
      rw [ht1, ht2]
      exact ht

/-- Environment of the witness run for claim C2: a fully successful run with
start sample 5 and end sample 9. -/
def envFull : Env :=
  ⟨[DnfOption.optionString "foo"], false, "", true, true, true, true, 5, 9⟩

/-- Trace of the witness run for claims C2 and C9. -/
def trFull : List Event :=
  [Event.createSystemRepo, Event.loadRepos, Event.addRpmInstall "foo",
   Event.resolveGoal false, Event.printTable, Event.promptConfirm, Event.download,
   Event.newDbTransaction, Event.fillTransactions, Event.setDtStart 5,
   Event.startRecord, Event.runTransaction true, Event.setDtEnd 9,
   Event.finishRecord TransactionState.DONE]

/-- Witness for claim C2 on a concrete fully successful run. -/
theorem record_finish_invariants_witness :
    trFull.countP Event.isFinishRecord = 1 ∧
    ((∃ t, Event.setDtEnd t ∈ trFull) ↔ (∃ s, Event.finishRecord s ∈ trFull)) ∧
    (∀ t u, Event.setDtStart t ∈ trFull → Event.setDtEnd u ∈ trFull → t ≤ u) :=
  record_finish_invariants envFull trFull Outcome.done (by decide) (by decide) (by decide)

end Microdnf

namespace Microdnf

/-- Claim C9: every pipeline run that reaches execution stamps the record
start time and starts the record strictly before the execution collaborator
runs, and stamps the end time and finishes the record with state DONE after
it, whatever outcome the execution collaborator reports (the reported outcome
does not influence the finish bookkeeping). -/
theorem execution_bracketed_by_record_stamps :
    ∀ (env : Env) (tr : List Event) (out : Outcome),
      run env = some (tr, out) → (∃ b, Event.runTransaction b ∈ tr) →
      out = Outcome.done ∧
      ∃ pre, tr = pre ++ [Event.setDtStart env.t1, Event.startRecord,
        Event.runTransaction env.execOk,
        Event.setDtEnd env.t2, Event.finishRecord TransactionState.DONE] := by
  intro env tr out h hmem
  obtain ⟨b, hb⟩ := hmem
  obtain ⟨vals, _, hcase⟩ := run_shape env tr out h
  rcases hcase with ⟨_, rfl, _⟩ | ⟨_, _, rfl, _⟩ | ⟨_, _, _, rfl, _⟩ |
    ⟨_, _, _, _, rfl, _⟩ | ⟨_, _, _, _, rfl, rfl⟩
  · exfalso
    rcases List.mem_append.mp hb with hm | hm
    · exact not_mem_preTrace (by simp) (by simp) (by simp) (by simp) hm
    · simp at hm
  · exfalso
    rcases List.mem_append.mp hb with hm | hm
    · exact not_mem_preTrace (by simp) (by simp) (by simp) (by simp) hm
    · simp at hm
  · exfalso
    rcases List.mem_append.mp hb with hm | hm
    · exact not_mem_preTrace (by simp) (by simp) (by simp) (by simp) hm
    · simp at hm
  · exfalso
    rcases List.mem_append.mp hb with hm | hm
    · exact not_mem_preTrace (by simp) (by simp) (by simp) (by simp) hm
    · simp at hm
  · refine ⟨rfl, preTrace vals ++ [Event.printTable, Event.promptConfirm,
      Event.download, Event.newDbTransaction, Event.fillTransactions], ?_⟩
    simp

/-- Environment of the witness run for claim C9: a run that reaches execution
and whose execution collaborator reports a failure. -/
def envExecFail : Env :=
  ⟨[DnfOption.optionString "foo"], false, "", true, true, true, false, 5, 9⟩

/-- Trace of the witness run for claim C9. -/
def trExecFail : List Event :=
  [Event.createSystemRepo, Event.loadRepos, Event.addRpmInstall "foo",
   Event.resolveGoal false, Event.printTable, Event.promptConfirm, Event.download,
   Event.newDbTransaction, Event.fillTransactions, Event.setDtStart 5,
   Event.startRecord, Event.runTransaction false, Event.setDtEnd 9,
   Event.finishRecord TransactionState.DONE]

/-- Witness for claim C9 on a concrete run whose execution reports failure:
the record is still stamped and finished with DONE around the execution. -/
theorem execution_bracketed_witness :
    Outcome.done = Outcome.done ∧
    ∃ pre, trExecFail = pre ++ [Event.setDtStart 5, Event.startRecord,
      Event.runTransaction false, Event.setDtEnd 9,
      Event.finishRecord TransactionState.DONE] :=
  execution_bracketed_by_record_stamps envExecFail trExecFail Outcome.done
    (by decide) ⟨false, by decide⟩

/-- Claim C10: the goal-construction loop dereferences the downcast of each
collected pattern with no null check, so it is free of a null dereference
exactly when every collected element is an OptionString, and the collected
list the argument-parser setup produces satisfies that precondition, the loop
then reading back exactly the supplied strings. -/
theorem goal_loop_null_safety :
    (∀ patterns : List DnfOption,
      (addInstallRequests patterns).isSome = patterns.all DnfOption.isOptionString) ∧
    (∀ args : List String, addInstallRequests (collectPatterns args) = some args) := by
  constructor
  · intro patterns
    induction patterns with
    | nil => rfl
    | cons p ps ih =>
      cases p with
      | optionString v =>
        simp only [addInstallRequests, castAndGetValue, List.all_cons,
          DnfOption.isOptionString, Bool.true_and, ← ih]
        cases addInstallRequests ps <;> simp
      | optionBool b =>
        simp [addInstallRequests, castAndGetValue, DnfOption.isOptionString]
  · intro args
    induction args with
    | nil => rfl
    | cons a as ih =>
      simp only [collectPatterns] at ih
      simp [collectPatterns, addInstallRequests, castAndGetValue, ih]

end Microdnf
